import Mathlib

/-!
Verification of the on-the-road-server POI narration service.

The JavaScript sources are shallowly embedded as Lean functions:

* numbers that the code manipulates (coordinates, distances, scores) are
  modelled as rationals;
* JavaScript values that may be absent (`undefined`, `null`, non-number
  fields) are modelled with `Option`;
* external IO (knowledge-source fetches, the LLM, TTS, the database pool)
  is modelled by passing the fetched values, or fetch functions, as
  explicit parameters, and by threading explicit state records for the
  in-memory maps and the Postgres tables;
* transcendental helpers (the haversine `distanceMeters`, the
  `Math.log10`-based `scorePlace`) are modelled as function parameters,
  since their claims never depend on the numerics of those functions.

Each section names the source file and function it embeds.
-/

namespace OnTheRoad

/-! ## String helpers (modelling JavaScript string primitives) -/
/-- Model of the JavaScript `String.prototype.trim`. -/
def jsTrim (s : String) : String :=
  String.mk (((s.data.dropWhile Char.isWhitespace).reverse.dropWhile Char.isWhitespace).reverse)

/-- Model of the JavaScript `String.prototype.toLowerCase` (ASCII fragment). -/
def jsToLower (s : String) : String :=
  String.mk (s.data.map Char.toLower)

/-- Model of the JavaScript `String.prototype.startsWith`. -/
def strStartsWith (s pre : String) : Bool :=
  pre.data.isPrefixOf s.data

/-- Model of `s.replace(prefixLen dropped)` as used for `p.id.replace("wd:", "")`. -/
def strDrop (s : String) (n : Nat) : String :=
  String.mk (s.data.drop n)

/-- Association-list lookup, modelling `Map.prototype.get`. -/
def findVal {α : Type} [DecidableEq α] {β : Type} : List (α × β) → α → Option β
  | [], _ => none
  | (k, v) :: rest, k' => if k = k' then some v else findVal rest k'

/-- Association-list update, modelling `Map.prototype.set` (replaces in place,
    appends when the key is new, preserving insertion order). -/
def setVal {α : Type} [DecidableEq α] {β : Type} : List (α × β) → α → β → List (α × β)
  | [], k, v => [(k, v)]
  | (k', v') :: rest, k, v => if k' = k then (k, v) :: rest else (k', v') :: setVal rest k v

/-! ## Geo and number helpers — src/server.js -/
/-- src/server.js `roundToNearest(n, step)`: `Math.round(n / step) * step`.
    JavaScript `Math.round(x)` is `⌊x + 1/2⌋`, which is Mathlib `round`. -/
def roundToNearest (n step : ℚ) : ℚ :=
  (round (n / step) : ℤ) * step

/-- src/server.js `approxDistanceMeters(distanceMeters, stepMeters = 50)`.
    The `Number.isFinite` guard is modelled by the `Option`: `none` stands for
    a non-finite JavaScript number, and the function returns `null` on it. -/
def approxDistanceMeters (distanceMeters : Option ℚ) (stepMeters : ℚ) : Option ℚ :=
  match distanceMeters with
  | none => none
  | some dm =>
    let d := max 0 dm
    let step := max 10 stepMeters
    some (roundToNearest d step)

/-- src/server.js `fetchNearbyPoisFromWikidata`, line
    `const radiusKm = Math.max(0.2, Math.min(5, radiusMeters / 1000))`:
    the kilometre radius actually sent in the SPARQL proximity query. -/
def wikidataRadiusKm (radiusMeters : ℚ) : ℚ :=
  max (2/10) (min 5 (radiusMeters / 1000))

/-! ## History store — src/server.js `getHeardSetForUser` / `markPlaceHeardForUser`

The store has two tiers: the process map `userPlacesHistoryMemory`
(userKey to a Set of place ids, modelled as an insertion-ordered duplicate-free
list) and the Postgres table `user_place_history` (rows `(user_key, place_id)`
with that pair as primary key, modelled as a list of pairs).  The flag `pool`
models whether a `DATABASE_URL` pool exists. -/
structure HistoryState where
  memory : List (String × List String)
  db : List (String × String)
deriving DecidableEq

/-- src/server.js `getHeardSetForUser(userKey)`: serve from memory when
    present, otherwise load the durable rows for the user into memory and
    serve that set.  Returns the set together with the updated state. -/
def getHeardSetForUser (pool : Bool) (userKey : String) (st : HistoryState) :
    List String × HistoryState :=
  match findVal st.memory userKey with
  | some s => (s, st)
  | none =>
    let s := if pool then (st.db.filter (fun r => r.1 = userKey)).map (fun r => r.2) else []
    (s, { st with memory := setVal st.memory userKey s })

/-- The JavaScript `Set.prototype.add`: append when absent. -/
def setAdd (s : List String) (x : String) : List String :=
  if s.contains x then s else s ++ [x]

/-- The SQL `INSERT ... ON CONFLICT (user_key, place_id) DO NOTHING`. -/
def dbUpsert (d : List (String × String)) (row : String × String) : List (String × String) :=
  if d.contains row then d else d ++ [row]

/-- src/server.js `markPlaceHeardForUser(userKey, placeId)`: no-op on a falsy
    place id; otherwise add to the in-memory set, and upsert the durable row
    with `ON CONFLICT (user_key, place_id) DO NOTHING` when a pool exists. -/
def markPlaceHeardForUser (pool : Bool) (userKey placeId : String) (st : HistoryState) :
    HistoryState :=
  if placeId = "" then st
  else
    let g := getHeardSetForUser pool userKey st
    let st2 := { g.2 with memory := setVal g.2.memory userKey (setAdd g.1 placeId) }
    if pool then { st2 with db := dbUpsert st2.db (userKey, placeId) }
    else st2

/-- The heard set a user would observe, reading through the two tiers without
    mutating them (memory first, then the durable rows). -/
def heardSetOf (pool : Bool) (st : HistoryState) (userKey : String) : List String :=
  match findVal st.memory userKey with
  | some s => s
  | none => if pool then (st.db.filter (fun r => r.1 = userKey)).map (fun r => r.2) else []

/-! ## POIs and candidate selection — src/server.js `pickBestPoiForUser`

`SrvPoi` is the unified POI record produced by the source adapters
(`osmElementToPoi`, `fetchNearbyPoisFromWikidata`, Google mapping): string id
such as `osm:node/1` or `wd:Q42`, name, coordinates, optional `wikidata` /
`wikipedia` tags and description.  Coordinate fields are `Option` because the
picker checks `typeof p.lat === "number"`.

The Wikidata / Wikipedia fact fetches are cached HTTP calls returning
`{facts, sources, meta}`; they are modelled by the `EnrichOracle` record of
pure functions.  The haversine `distanceMeters` is modelled as the function
parameter `dist`. -/
structure SrvPoi where
  id : String
  name : String
  lat : Option ℚ
  lng : Option ℚ
  source : String
  wikidataId : Option String
  wikipedia : Option String
  description : Option String
deriving DecidableEq

/-- The `meta` flags produced by src/server.js `fetchWikidataFacts`. -/
structure FactsMeta where
  hasInception : Bool := false
  hasNamedAfter : Bool := false
  hasArchitect : Bool := false
  hasHeritage : Bool := false
  hasEvent : Bool := false
  hasDesc : Bool := false
  namedAfterQid : Option String := none
deriving DecidableEq

/-- A `{facts, sources, meta}` result of the fact fetch helpers. -/
structure FactsResult where
  facts : List String := []
  sources : List String := []
  meta : FactsMeta := {}
deriving DecidableEq

/-- A Wikidata sitelink `{lang, title}` from `fetchWikipediaTitleFromWikidata`. -/
structure SiteLink where
  lang : String
  title : String
deriving DecidableEq

/-- The external fact-fetch helpers of src/server.js, as pure functions
    (each is a cached HTTP call keyed exactly by these arguments). -/
structure EnrichOracle where
  fetchWikidataFacts : String → String → FactsResult
  fetchPersonFacts : String → String → FactsResult
  fetchWikipediaSummaryFacts : String → String → FactsResult
  fetchWikipediaTitleFromWikidata : String → String → Option SiteLink
  fetchWikipediaSummaryByLangTitle : String → String → FactsResult

/-- src/server.js `countHardAnchors(factsMeta)`. -/
def countHardAnchors (m : FactsMeta) : Nat :=
  (if m.hasNamedAfter then 1 else 0) + (if m.hasInception then 1 else 0) +
  (if m.hasEvent then 1 else 0) + (if m.hasHeritage then 1 else 0)

/-- src/server.js `computeFactScore(distanceM, factsMeta, factsCount)`.
    The distance is a rational here, so the `Number.isFinite` fallback to
    999999 cannot trigger. -/
def computeFactScore (d : ℚ) (m : FactsMeta) (factsCount : Nat) : ℚ :=
  d - (if m.hasNamedAfter then 650 else 0) - (if m.hasInception then 350 else 0)
    - (if m.hasEvent then 650 else 0) - (if m.hasHeritage then 450 else 0)
    - (if m.hasArchitect then 250 else 0)
    - (min 6 factsCount : ℕ) * 120

/-- A filtered candidate `{p, d, qid}` of `pickBestPoiForUser`. -/
structure RawCand where
  p : SrvPoi
  d : ℚ
  qid : Option String
deriving DecidableEq

/-- An enriched candidate as pushed onto `enriched` in `pickBestPoiForUser`
    (its `facts` are already capped by `facts.slice(0, 12)`). -/
structure EnrichedCand where
  p : SrvPoi
  d : ℚ
  qid : Option String
  facts : List String
  sources : List String
  meta : FactsMeta
  score : ℚ
deriving DecidableEq

/-- The qid extraction in `pickBestPoiForUser`:
    `p.wikidataId || (p.id.startsWith("wd:") ? p.id.replace("wd:", "") : null)`. -/
def qidOfPoi (p : SrvPoi) : Option String :=
  match p.wikidataId with
  | some q => if q = "" then (if strStartsWith p.id "wd:" then some (strDrop p.id 3) else none)
              else some q
  | none => if strStartsWith p.id "wd:" then some (strDrop p.id 3) else none

/-- The filter body of the first loop of `pickBestPoiForUser`: keep POIs with
    numeric coordinates, within 2000 m, and not in the heard set. -/
def rawCandOf (dist : ℚ → ℚ → ℚ → ℚ → ℚ) (lat lng : ℚ) (heardSet : List String)
    (p : SrvPoi) : Option RawCand :=
  match p.lat, p.lng with
  | some pla, some plng =>
    let d := dist lat lng pla plng
    if d > 2000 then none
    else if heardSet.contains p.id then none
    else some { p := p, d := d, qid := qidOfPoi p }
  | _, _ => none

/-- The facts first collected for a candidate in `pickBestPoiForUser`:
    Wikidata facts for a qid (plus person facts when named after someone),
    else a single description fact. -/
def enrichBase (o : EnrichOracle) (lang : String) (c : RawCand) : FactsResult :=
  match c.qid with
  | some q =>
    let r := o.fetchWikidataFacts q lang
    match r.meta.namedAfterQid with
    | some q2 =>
      if q2 = "" then r
      else
        let pr := o.fetchPersonFacts q2 lang
        if pr.facts ≠ [] then
          { facts := r.facts ++ pr.facts, sources := r.sources ++ pr.sources, meta := r.meta }
        else r
    | none => r
  | none =>
    match c.p.description with
    | some dsc =>
      if jsTrim dsc ≠ "" then
        { facts := ["Description: " ++ jsTrim dsc ++ "."], sources := [],
          meta := { hasDesc := true } }
      else {}
    | none => {}

/-- The first weak-candidate retry of `pickBestPoiForUser`: append Wikipedia
    summary facts via the OSM `wikipedia` tag when present. -/
def enrichStep2 (o : EnrichOracle) (lang : String) (c : RawCand) (base : FactsResult) :
    FactsResult :=
  match c.p.wikipedia with
  | some w =>
    if w ≠ "" then
      let wr := o.fetchWikipediaSummaryFacts w lang
      if wr.facts ≠ [] then
        { base with facts := base.facts ++ wr.facts, sources := base.sources ++ wr.sources }
      else base
    else base
  | none => base

/-- The second weak-candidate retry of `pickBestPoiForUser`: resolve a
    Wikipedia sitelink through Wikidata and append its summary facts. -/
def enrichStep3 (o : EnrichOracle) (lang q : String) (prev : FactsResult) : FactsResult :=
  match o.fetchWikipediaTitleFromWikidata q lang with
  | some sl =>
    if sl.title ≠ "" then
      let wr2 := o.fetchWikipediaSummaryByLangTitle sl.lang (String.replace sl.title " " "_")
      if wr2.facts ≠ [] then
        { prev with facts := prev.facts ++ wr2.facts, sources := prev.sources ++ wr2.sources }
      else prev
    else prev
  | none => prev

/-- The record pushed onto `enriched` for an accepted candidate: facts capped
    by `facts.slice(0, 12)`, score computed on the uncapped count. -/
def mkEnriched (c : RawCand) (fr : FactsResult) : EnrichedCand :=
  { p := c.p, d := c.d, qid := c.qid, facts := fr.facts.take 12,
    sources := fr.sources, meta := fr.meta,
    score := computeFactScore c.d fr.meta fr.facts.length }

/-- The enrichment body of the second loop of `pickBestPoiForUser`: fetch
    facts, apply the staged quality gate (`≥4 facts and ≥1 hard anchor, or ≥6
    facts`, relaxing after each retry to `≥3 and ≥1, or ≥5`), and build the
    enriched record.  Returns `none` exactly when `if (!ok) continue` skips
    the candidate. -/
def enrichOne (o : EnrichOracle) (lang : String) (c : RawCand) : Option EnrichedCand :=
  let base := enrichBase o lang c
  let hardAnchors := countHardAnchors base.meta
  if (base.facts.length ≥ 4 ∧ hardAnchors ≥ 1) ∨ base.facts.length ≥ 6 then
    some (mkEnriched c base)
  else
    let step2 := enrichStep2 o lang c base
    if (step2.facts.length ≥ 3 ∧ hardAnchors ≥ 1) ∨ step2.facts.length ≥ 5 then
      some (mkEnriched c step2)
    else
      match c.qid with
      | some q =>
        let step3 := enrichStep3 o lang q step2
        if (step3.facts.length ≥ 3 ∧ hardAnchors ≥ 1) ∨ step3.facts.length ≥ 5 then
          some (mkEnriched c step3)
        else none
      | none => none

/-- src/server.js `pickBestPoiForUser(pois, lat, lng, userKey, language)`,
    with the heard set passed as a value (the caller loads it through
    `getHeardSetForUser`) and external fetches through the oracle.  Filters to
    nearby unheard POIs, sorts by distance, enriches the closest 16 through
    the staged quality gate, and returns the minimum-score enriched candidate. -/
def pickBestPoiForUser (o : EnrichOracle) (dist : ℚ → ℚ → ℚ → ℚ → ℚ)
    (pois : List SrvPoi) (lat lng : ℚ) (heardSet : List String) (language : String) :
    Option EnrichedCand :=
  if pois = [] then none
  else
    let lang := if language = "he" then "he" else if language = "fr" then "fr" else "en"
    let raw := pois.filterMap (rawCandOf dist lat lng heardSet)
    let sorted := raw.mergeSort (fun a b => a.d ≤ b.d)
    let enriched := (sorted.take 16).filterMap (enrichOne o lang)
    match enriched.mergeSort (fun a b => a.score ≤ b.score) with
    | [] => none
    | b :: _ => some b

/-! ## Unified POI retrieval and cache — src/server.js `getNearbyPois`

`makeCacheKey` builds the string
`mode:language:lat.toFixed(4),lng.toFixed(4),radius`; it is modelled as a
record whose coordinate components carry the 4-decimal rounding (the string
rendering is injective on these components).  The de-duplication key
`name|lat4|lng4` is modelled the same way, with `x`/`y` placeholders for
non-numeric coordinates modelled by `none`. -/
/-- Rounding to 4 decimals, modelling `toFixed(4)`. -/
def round4 (x : ℚ) : ℚ :=
  ((round (x * 10000) : ℤ) : ℚ) / 10000

structure CacheKey where
  mode : String
  language : String
  latKey : ℚ
  lngKey : ℚ
  radius : ℚ
deriving DecidableEq

/-- src/server.js `makeCacheKey(lat, lng, radiusMeters, mode, language)`. -/
def makeCacheKey (lat lng radiusMeters : ℚ) (mode language : String) : CacheKey :=
  { mode := mode, language := language, latKey := round4 lat, lngKey := round4 lng,
    radius := radiusMeters }

/-- The light de-duplication key of `getNearbyPois`:
    lowercased trimmed name plus 4-decimal coordinates. -/
def dedupKey (p : SrvPoi) : String × Option ℚ × Option ℚ :=
  (jsToLower (jsTrim p.name), p.lat.map round4, p.lng.map round4)

def dedupeAux : List SrvPoi → List (String × Option ℚ × Option ℚ) → List SrvPoi
  | [], _ => []
  | p :: rest, seen =>
    let k := dedupKey p
    if seen.contains k then dedupeAux rest seen
    else p :: dedupeAux rest (k :: seen)

/-- The `// de-dupe by name+coord (light)` loop of `getNearbyPois`:
    first occurrence wins. -/
def dedupePois (pois : List SrvPoi) : List SrvPoi :=
  dedupeAux pois []

/-- The three source adapters, as functions from the query coordinates and
    radius to a settled result: `.ok` models a fulfilled fetch, `.error` a
    rejected one (timeout, non-2xx, malformed body). -/
structure Adapters where
  osm : ℚ → ℚ → ℚ → Except String (List SrvPoi)
  wikidata : ℚ → ℚ → ℚ → String → Except String (List SrvPoi)
  google : ℚ → ℚ → ℚ → Except String (List SrvPoi)

/-- The process-wide mutable state of src/server.js that the story endpoint
    touches: the `placesCacheMemory` map, the `places_cache` table, and the
    two-tier user history. -/
structure ServerState where
  placesCacheMemory : List (CacheKey × List SrvPoi)
  placesCacheDb : List (CacheKey × List SrvPoi)
  history : HistoryState
deriving DecidableEq

/-- src/server.js `getNearbyPois(lat, lng, radiusMeters, mode, language)`:
    memory cache, then durable cache, then the settled union of the OSM and
    Wikidata adapters (Google only as fallback when both give nothing, or as
    the sole source outside "interesting" mode, where its failure
    propagates).  The result is de-duplicated and written to both caches. -/
def getNearbyPois (pool : Bool) (ad : Adapters) (lat lng radiusMeters : ℚ)
    (mode language : String) (st : ServerState) :
    Except String (List SrvPoi × ServerState) :=
  let key := makeCacheKey lat lng radiusMeters mode language
  match findVal st.placesCacheMemory key with
  | some mem => .ok (mem, st)
  | none =>
    match (if pool then findVal st.placesCacheDb key else none) with
    | some pois =>
      .ok (pois, { st with placesCacheMemory := setVal st.placesCacheMemory key pois })
    | none =>
      let fetched : Except String (List SrvPoi) :=
        if mode = "interesting" then
          let osmL := match ad.osm lat lng radiusMeters with | .ok l => l | .error _ => []
          let wdL := match ad.wikidata lat lng radiusMeters language with
                     | .ok l => l | .error _ => []
          let pois0 := osmL ++ wdL
          .ok (if pois0 = [] then
                 (match ad.google lat lng radiusMeters with | .ok l => l | .error _ => [])
               else pois0)
        else ad.google lat lng radiusMeters
      match fetched with
      | .error e => .error e
      | .ok pois1 =>
        let deduped := dedupePois pois1
        let st1 := { st with placesCacheMemory := setVal st.placesCacheMemory key deduped }
        let st2 := if pool then
                     { st1 with placesCacheDb := setVal st1.placesCacheDb key deduped }
                   else st1
        .ok (deduped, st2)

/-! ## The story endpoint — src/server.js `app.post("/api/story-both")` -/
/-- The request body fields the endpoint reads.  A field is `none` when it is
    absent or not of the checked type (`typeof lat !== "number"` etc.). -/
structure StoryRequest where
  prompt : Option String
  lat : Option ℚ
  lng : Option ℚ
  language : Option String
deriving DecidableEq

/-- The language normalisation at the top of the endpoint: default `he`,
    lowercase, fall back to `he` outside {he, en, fr}. -/
def normalizeLanguageServer (language : Option String) : String :=
  let l0 := match language with
            | none => "he"
            | some s => if s = "" then "he" else s
  let l1 := jsToLower l0
  if l1 = "he" ∨ l1 = "en" ∨ l1 = "fr" then l1 else "he"

/-- The endpoint responses: a 400 error body, a 200 silent decision, a 200
    spoken story envelope, or the 500 of the catch-all handler. -/
inductive StoryResponse where
  | badRequest (error : String)
  | silentReply (reason language : String)
  | spoken (text poiId poiName poiSource : String) (distanceMetersApprox : Option ℚ)
      (language : String)
  | serverError
deriving DecidableEq

def httpStatus : StoryResponse → ℕ
  | .badRequest _ => 400
  | .silentReply _ _ => 200
  | .spoken _ _ _ _ _ _ => 200
  | .serverError => 500

/-- src/server.js constant `BTW_MIN_WORDS` (only used in the prompt text). -/
def BTW_MIN_WORDS : ℕ := 110

/-- src/server.js constant `BTW_MAX_WORDS` (only used in the prompt text). -/
def BTW_MAX_WORDS : ℕ := 190

def countWordsAux : List Char → Bool → ℕ
  | [], _ => 0
  | c :: rest, inWord =>
    if c.isWhitespace then countWordsAux rest false
    else (if inWord then 0 else 1) + countWordsAux rest true

/-- The word count of the spec: the number of tokens of a whitespace split,
    ignoring empty tokens (counted as maximal non-whitespace runs). -/
def countWords (s : String) : ℕ :=
  countWordsAux s.data false

/-- `pickBestPoiForUser` as called by the endpoint: it loads the heard set
    (mutating the history state through the lazy cache) before filtering;
    when the POI list is empty it returns before touching the history. -/
def pickBestPoiForUserS (pool : Bool) (o : EnrichOracle) (dist : ℚ → ℚ → ℚ → ℚ → ℚ)
    (pois : List SrvPoi) (lat lng : ℚ) (userKey language : String) (h : HistoryState) :
    Option EnrichedCand × HistoryState :=
  if pois = [] then (none, h)
  else
    let g := getHeardSetForUser pool userKey h
    (pickBestPoiForUser o dist pois lat lng g.1 language, g.2)

/-- The expanding-radii loop of the endpoint: stop at the first radius whose
    pick is non-null.  An adapter error that escapes `getNearbyPois` (only
    possible outside "interesting" mode) carries the state reached so far. -/
def storyRadiiLoop (pool : Bool) (ad : Adapters) (o : EnrichOracle)
    (dist : ℚ → ℚ → ℚ → ℚ → ℚ) (lat lng : ℚ) (userKey poisLang language : String) :
    List ℚ → ServerState → Except (String × ServerState) (Option EnrichedCand × ServerState)
  | [], st => .ok (none, st)
  | r :: rest, st =>
    match getNearbyPois pool ad lat lng r "interesting" poisLang st with
    | .error e => .error (e, st)
    | .ok (pois, st1) =>
      let pb := pickBestPoiForUserS pool o dist pois lat lng userKey language st1.history
      let st2 := { st1 with history := pb.2 }
      match pb.1 with
      | some b => .ok (some b, st2)
      | none => storyRadiiLoop pool ad o dist lat lng userKey poisLang language rest st2

/-- src/server.js `app.post("/api/story-both")`.  `gen` is the trimmed-to-be
    LLM completion content (`none` when the API returned no content), and the
    returned boolean records whether `ttsWithOpenAI` was invoked.  The radii
    are the literal `[400, 800, 1500, 2200]` of the code. -/
def storyBothHandler (pool : Bool) (ad : Adapters) (o : EnrichOracle)
    (dist : ℚ → ℚ → ℚ → ℚ → ℚ) (gen : Option String) (userKey : String)
    (req : StoryRequest) (st : ServerState) : StoryResponse × ServerState × Bool :=
  match req.prompt with
  | none => (.badRequest "Missing prompt in request body", st, false)
  | some pr =>
    if pr = "" then (.badRequest "Missing prompt in request body", st, false)
    else
      let language := normalizeLanguageServer req.language
      match req.lat, req.lng with
      | some lat, some lng =>
        let poisLang := if language = "he" then "he"
                        else if language = "fr" then "fr" else "en"
        match storyRadiiLoop pool ad o dist lat lng userKey poisLang language
            [400, 800, 1500, 2200] st with
        | .error es => (.serverError, es.2, false)
        | .ok (none, st1) => (.silentReply "no_strong_poi" language, st1, false)
        | .ok (some best, st1) =>
          let distApprox := approxDistanceMeters (some best.d) 50
          match gen with
          | none => (.serverError, st1, false)
          | some g =>
            let storyText := jsTrim g
            if storyText = "" then (.serverError, st1, false)
            else if storyText = "NO_STORY" then
              (.silentReply "model_no_story" language, st1, false)
            else
              let st2 := { st1 with
                history := markPlaceHeardForUser pool userKey best.p.id st1.history }
              (.spoken storyText best.p.id best.p.name best.p.source distApprox language,
               st2, true)
      | _, _ => (.silentReply "location_missing" language, st, false)

/-! ### A concrete picker run (used by the witnesses and the C1 counterexample)

One Wikidata POI 100 m away whose fact fetch yields six facts and no anchor
flags: the code accepts it through the `factsCount >= 6` arm of its gate. -/
def cxFacts : List String :=
  ["Fact one.", "Fact two.", "Fact three.", "Fact four.", "Fact five.", "Fact six."]

def cxOracle : EnrichOracle :=
  { fetchWikidataFacts := fun _ _ => { facts := cxFacts }
    fetchPersonFacts := fun _ _ => {}
    fetchWikipediaSummaryFacts := fun _ _ => {}
    fetchWikipediaTitleFromWikidata := fun _ _ => none
    fetchWikipediaSummaryByLangTitle := fun _ _ => {} }

def cxPoi : SrvPoi :=
  { id := "wd:Q100", name := "Old Tower", lat := some 10, lng := some 20,
    source := "wikidata", wikidataId := some "Q100", wikipedia := none, description := none }

/-- A stand-in for the haversine distance in concrete runs: constant 100 m. -/
def cxDist : ℚ → ℚ → ℚ → ℚ → ℚ := fun _ _ _ _ => 100

def cxEnriched : EnrichedCand :=
  { p := cxPoi, d := 100, qid := some "Q100", facts := cxFacts, sources := [],
    meta := {}, score := -620 }

/-! ### A concrete endpoint run: one OSM-delivered POI, empty caches -/
def cxAdapters : Adapters :=
  { osm := fun _ _ _ => .ok [cxPoi]
    wikidata := fun _ _ _ _ => .ok []
    google := fun _ _ _ => .ok [] }

def st0 : ServerState :=
  { placesCacheMemory := [], placesCacheDb := [], history := { memory := [], db := [] } }

def cxReq : StoryRequest :=
  { prompt := some "hi", lat := some 0, lng := some 0, language := some "en" }

/-- A request whose latitude is missing. -/
def cxReqNoLoc : StoryRequest :=
  { prompt := some "hi", lat := none, lng := some 0, language := none }

/-! ## The modular POI selection API — src/poiService.js `findBestPoi`

External IO is passed in: `geo` is the settled `reverseGeocode` result,
`candidates` the settled `googlePlacesNearby` list, `person` the
`tryPersonFactsFromName` lookup, `meters` the haversine `metersBetween`,
and `scoreF` the `Math.log10`-based `scorePlace`. -/
/-- A reverse-geocode anchor; absent sub-fields are empty strings (falsy). -/
structure GAnchor where
  provider : String
  street : String
  neighborhood : String
  city : String
  country : String
  areaLabel : String
deriving DecidableEq

/-- A mapped Google place record. -/
structure GPlace where
  placeId : String
  name : String
  types : List String
  rating : Option ℚ
  userRatingsTotal : Option ℚ
  vicinity : Option String
  location : Option (ℚ × ℚ)
deriving DecidableEq

/-- A `tryPersonFactsFromName` result. -/
structure PersonFacts where
  ok : Bool
  facts : List String
  person : Option String
deriving DecidableEq

/-- The `poiWithFacts` record built by `findBestPoi` (the `description`,
    `wikipediaUrl` and `imageUrl` fields are the constant `null`). -/
structure BPoi where
  key : String
  source : String
  label : String
  distanceMetersApprox : Option ℚ
  facts : List String
  anchor : Option GAnchor
  person : Option String
deriving DecidableEq

/-- The decision object returned by `findBestPoi`.  The JavaScript object has
    no `storyText` property, so reading it yields `undefined`: the field is
    the constant `none`. -/
structure FindBestResult where
  shouldSpeak : Bool
  reason : String
  distanceMetersApprox : Option ℚ
  poiKey : String
  poiLabel : String
  poiSource : String
  poiWithFacts : BPoi
  storyText : Option String := none
deriving DecidableEq

/-- src/poiService.js `normalizeLang(lang)`. -/
def normalizeLang (lang : String) : String :=
  let v := jsToLower (if lang = "" then "en" else lang)
  if strStartsWith v "he" then "he"
  else if strStartsWith v "fr" then "fr"
  else if strStartsWith v "en" then "en"
  else String.mk (v.data.take 5)

/-- src/utils.js `stripCommaSuffix(label)`. -/
def stripCommaSuffix (label : String) : String :=
  let s := jsTrim label
  if s = "" then s
  else jsTrim (String.mk (s.data.takeWhile (fun c => c ≠ ',')))

/-- Zero-padded fixed-point rendering, modelling `Number.prototype.toFixed`. -/
def toFixedN (x : ℚ) (n : ℕ) : String :=
  let m : ℤ := round (x * ((10 : ℚ) ^ n))
  let sign := if m < 0 then "-" else ""
  let a := m.natAbs
  let ip := a / 10 ^ n
  let fp := a % 10 ^ n
  let fpStr := toString fp
  let pad := if fpStr.data.length < n then
               String.mk (List.replicate (n - fpStr.data.length) '0') ++ fpStr
             else fpStr
  sign ++ toString ip ++ "." ++ pad

/-- JavaScript `Math.round` over the rationals. -/
def jsRound (x : ℚ) : ℚ :=
  ((round x : ℤ) : ℚ)

/-- src/poiService.js `buildPoiFromPlace(p, lat, lng)` (first revision: the
    facts are rating, review count and vicinity lines, Hebrew-labelled). -/
def buildPoiFromPlace (meters : ℚ → ℚ → ℚ → ℚ → ℚ) (p : GPlace) (lat lng : ℚ) : BPoi :=
  let dist : Option ℚ :=
    match p.location with
    | some loc => some (jsRound (meters lat lng loc.1 loc.2))
    | none => none
  let facts₀ : List String :=
    match p.rating with
    | some r => if r ≠ 0 then ["דירוג: " ++ toString r ++ "."] else []
    | none => []
  let facts₁ : List String :=
    match p.userRatingsTotal with
    | some n => if n ≠ 0 then facts₀ ++ ["מספר ביקורות: " ++ toString n ++ "."] else facts₀
    | none => facts₀
  let facts₂ : List String :=
    match p.vicinity with
    | some v => if v ≠ "" then facts₁ ++ ["באזור: " ++ v ++ "."] else facts₁
    | none => facts₁
  { key := "gplaces:" ++ p.placeId, source := "google_places", label := p.name,
    distanceMetersApprox := dist, facts := facts₂, anchor := none, person := none }

/-- The `best`/`bestScore` selection loop of `findBestPoi`. -/
def bestLoop (scoreF : GPlace → ℚ) (cs : List GPlace) : Option GPlace × ℚ :=
  cs.foldl (fun acc c => if scoreF c > acc.2 then (some c, scoreF c) else acc) (none, -1)

/-- JavaScript `x || null` on an optional string. -/
def strOrNone (s : Option String) : Option String :=
  match s with
  | some s => if s = "" then none else some s
  | none => none

/-- src/poiService.js `findBestPoi({lat, lng, userId, lang})` (first
    revision).  Non-finite coordinates are `none` and raise `HttpError(400)`;
    otherwise the best-scored Google place is returned with
    `reason:"poi_google_places"`, and when there is none, the anchor POI with
    `reason:"fallback_anchor"` — in both cases `shouldSpeak` is `true`. -/
def findBestPoi (geo : Option GAnchor) (candidates : List GPlace)
    (person : String → String → PersonFacts) (meters : ℚ → ℚ → ℚ → ℚ → ℚ)
    (scoreF : GPlace → ℚ) (poiMaxCandidates : ℕ) (lat lng : Option ℚ) (lang : String) :
    Except ℕ FindBestResult :=
  match lat, lng with
  | some la, some ln =>
    let l := normalizeLang lang
    let anchor := geo
    let best := (bestLoop scoreF (candidates.take poiMaxCandidates)).1
    match best with
    | some b =>
      let poi0 := buildPoiFromPlace meters b la ln
      let poi1 := { poi0 with anchor := anchor }
      let poi2 :=
        match anchor with
        | some a =>
          if a.street ≠ "" then
            let pf := person (stripCommaSuffix a.street) l
            if pf.ok ∧ pf.facts ≠ [] then
              { poi1 with facts := (poi1.facts ++ pf.facts).take 8 }
            else poi1
          else poi1
        | none => poi1
      .ok { shouldSpeak := true, reason := "poi_google_places",
            distanceMetersApprox := poi2.distanceMetersApprox,
            poiKey := poi2.key, poiLabel := poi2.label, poiSource := poi2.source,
            poiWithFacts := poi2 }
    | none =>
      let label :=
        match anchor with
        | some a =>
          if a.areaLabel ≠ "" then a.areaLabel
          else if l = "he" then "האזור הזה" else if l = "fr" then "ce coin" else "this area"
        | none =>
          if l = "he" then "האזור הזה" else if l = "fr" then "ce coin" else "this area"
      let anchorPoi0 : BPoi :=
        { key := "anchor:" ++ toFixedN la 5 ++ "," ++ toFixedN ln 5, source := "anchor",
          label := label, distanceMetersApprox := some 0, facts := [], anchor := anchor,
          person := none }
      let anchorPoi :=
        match anchor with
        | some a =>
          if a.street ≠ "" then
            let pf := person (stripCommaSuffix a.street) l
            if pf.ok ∧ pf.facts ≠ [] then
              { anchorPoi0 with facts := (anchorPoi0.facts ++ pf.facts).take 6,
                                person := strOrNone pf.person }
            else anchorPoi0
          else anchorPoi0
        | none => anchorPoi0
      .ok { shouldSpeak := true, reason := "fallback_anchor",
            distanceMetersApprox := some 0,
            poiKey := anchorPoi.key, poiLabel := anchorPoi.label,
            poiSource := anchorPoi.source, poiWithFacts := anchorPoi }
  | _, _ => .error 400

/-- The trivial person lookup: nothing found. -/
def cxPerson : String → String → PersonFacts :=
  fun _ _ => { ok := false, facts := [], person := none }

def cxScore : GPlace → ℚ := fun _ => 0

/-- Adapters in which exactly the OSM source fails. -/
def cxAdaptersOsmFail : Adapters :=
  { osm := fun _ _ _ => .error "timeout"
    wikidata := fun _ _ _ _ => .ok [cxPoi]
    google := fun _ _ _ => .ok [] }

/-- Adapters in which every source fulfills with no candidates. -/
def cxEmptyAdapters : Adapters :=
  { osm := fun _ _ _ => .ok []
    wikidata := fun _ _ _ _ => .ok []
    google := fun _ _ _ => .ok [] }

end OnTheRoad

namespace OnTheRoad

theorem findVal_setVal_self {α : Type} [DecidableEq α] {β : Type}
    (m : List (α × β)) (k : α) (v : β) : findVal (setVal m k v) k = some v := by
  induction m with
  | nil => simp [setVal, findVal]
  | cons hd tl ih =>
    obtain ⟨k', v'⟩ := hd
    by_cases h : k' = k
    · simp [setVal, h, findVal]
    · simp [setVal, h, findVal, ih]

theorem findVal_setVal_of_ne {α : Type} [DecidableEq α] {β : Type}
    (m : List (α × β)) (k k' : α) (v : β) (h : k ≠ k') :
    findVal (setVal m k v) k' = findVal m k' := by
  induction m with
  | nil => simp [setVal, findVal, h]
  | cons hd tl ih =>
    obtain ⟨k₀, v₀⟩ := hd
    by_cases h₀ : k₀ = k
    · subst h₀
      simp [setVal, findVal, h, ih]
    · simp only [setVal, if_neg h₀, findVal]
      by_cases h₁ : k₀ = k'
      · simp [h₁]
      · simp [h₁, ih]

theorem setVal_setVal_self {α : Type} [DecidableEq α] {β : Type}
    (m : List (α × β)) (k : α) (v w : β) : setVal (setVal m k v) k w = setVal m k w := by
  induction m with
  | nil => simp [setVal]
  | cons hd tl ih =>
    obtain ⟨k', v'⟩ := hd
    by_cases h : k' = k
    · simp [setVal, h]
    · simp [setVal, h, ih]

theorem setAdd_contains_self (s : List String) (x : String) :
    (setAdd s x).contains x = true := by
  unfold setAdd
  by_cases h : x ∈ s
  · simp [h]
  · simp [h]

theorem setAdd_self (s : List String) (x : String) :
    setAdd (setAdd s x) x = setAdd s x := by
  unfold setAdd
  by_cases h : x ∈ s
  · simp [h]
  · simp [h]

theorem dbUpsert_contains_self (d : List (String × String)) (row : String × String) :
    (dbUpsert d row).contains row = true := by
  unfold dbUpsert
  by_cases h : row ∈ d
  · simp [h]
  · simp [h]

theorem dbUpsert_idem (d : List (String × String)) (row : String × String) :
    dbUpsert (dbUpsert d row) row = dbUpsert d row := by
  unfold dbUpsert
  by_cases h : row ∈ d
  · simp [h]
  · simp [h]

theorem getHeardSetForUser_fst (pool : Bool) (userKey : String) (st : HistoryState) :
    (getHeardSetForUser pool userKey st).1 = heardSetOf pool st userKey := by
  unfold getHeardSetForUser heardSetOf
  cases findVal st.memory userKey <;> simp

theorem getHeardSetForUser_db (pool : Bool) (userKey : String) (st : HistoryState) :
    (getHeardSetForUser pool userKey st).2.db = st.db := by
  unfold getHeardSetForUser
  cases findVal st.memory userKey <;> simp

theorem heardSetOf_getHeardSetForUser (pool : Bool) (userKey u : String) (st : HistoryState) :
    heardSetOf pool (getHeardSetForUser pool userKey st).2 u = heardSetOf pool st u := by
  unfold getHeardSetForUser
  cases h : findVal st.memory userKey with
  | some s => simp
  | none =>
    simp only [heardSetOf]
    by_cases hu : u = userKey
    · subst hu
      rw [findVal_setVal_self, h]
    · rw [findVal_setVal_of_ne _ _ _ _ (fun he => hu he.symm)]

/-! ### Structural lemmas about the picker -/
theorem rawCandOf_spec (dist : ℚ → ℚ → ℚ → ℚ → ℚ) (lat lng : ℚ) (heardSet : List String)
    (p : SrvPoi) (c : RawCand) (h : rawCandOf dist lat lng heardSet p = some c) :
    c.p = p ∧ c.d ≤ 2000 ∧ heardSet.contains p.id = false ∧
    ∃ pla plng, p.lat = some pla ∧ p.lng = some plng ∧ c.d = dist lat lng pla plng := by
  unfold rawCandOf at h
  match hla : p.lat, hlng : p.lng with
  | some pla, some plng =>
    rw [hla, hlng] at h
    simp only at h
    split at h
    · exact absurd h (by simp)
    · split at h
      · exact absurd h (by simp)
      · next hfar hheard =>
        obtain rfl : ({ p := p, d := dist lat lng pla plng, qid := qidOfPoi p } : RawCand) = c :=
          by injection h
        refine ⟨rfl, le_of_not_lt hfar, by simpa using hheard, pla, plng, rfl, rfl, rfl⟩
  | some pla, none => rw [hla, hlng] at h; exact absurd h (by simp)
  | none, some plng => rw [hla, hlng] at h; exact absurd h (by simp)
  | none, none => rw [hla, hlng] at h; exact absurd h (by simp)

theorem enrichStep2_meta (o : EnrichOracle) (lang : String) (c : RawCand) (base : FactsResult) :
    (enrichStep2 o lang c base).meta = base.meta := by
  unfold enrichStep2
  rcases c.p.wikipedia with _ | w
  · rfl
  · by_cases hw : w ≠ ""
    · simp only [if_pos hw]
      by_cases hf : (o.fetchWikipediaSummaryFacts w lang).facts ≠ [] <;> simp [hf]
    · simp [hw]

theorem enrichStep3_meta (o : EnrichOracle) (lang q : String) (prev : FactsResult) :
    (enrichStep3 o lang q prev).meta = prev.meta := by
  unfold enrichStep3
  rcases o.fetchWikipediaTitleFromWikidata q lang with _ | sl
  · rfl
  · by_cases ht : sl.title ≠ ""
    · simp only [if_pos ht]
      by_cases hf : (o.fetchWikipediaSummaryByLangTitle sl.lang
          (String.replace sl.title " " "_")).facts ≠ [] <;> simp [hf]
    · simp [ht]

theorem mkEnriched_gate_of_le (c : RawCand) (fr : FactsResult)
    (h : (3 ≤ fr.facts.length ∧ 1 ≤ countHardAnchors fr.meta) ∨ 5 ≤ fr.facts.length) :
    (3 ≤ (mkEnriched c fr).facts.length ∧ 1 ≤ countHardAnchors (mkEnriched c fr).meta) ∨
      5 ≤ (mkEnriched c fr).facts.length := by
  simp only [mkEnriched, List.length_take]
  rcases h with ⟨h3, h1⟩ | h5
  · exact Or.inl ⟨le_min (by norm_num) h3, h1⟩
  · exact Or.inr (le_min (by norm_num) h5)

theorem enrichOne_spec (o : EnrichOracle) (lang : String) (c : RawCand) (e : EnrichedCand)
    (h : enrichOne o lang c = some e) :
    e.p = c.p ∧ e.d = c.d ∧
    ((3 ≤ e.facts.length ∧ 1 ≤ countHardAnchors e.meta) ∨ 5 ≤ e.facts.length) := by
  simp only [enrichOne] at h
  split at h
  · next hok =>
    obtain rfl : mkEnriched c (enrichBase o lang c) = e := by injection h
    refine ⟨rfl, rfl, mkEnriched_gate_of_le _ _ ?_⟩
    rcases hok with ⟨h4, h1⟩ | h6
    · exact Or.inl ⟨le_trans (by norm_num) h4, h1⟩
    · exact Or.inr (le_trans (by norm_num) h6)
  · split at h
    · next hok =>
      obtain rfl : mkEnriched c (enrichStep2 o lang c (enrichBase o lang c)) = e := by
        injection h
      refine ⟨rfl, rfl, mkEnriched_gate_of_le _ _ ?_⟩
      -- the hard-anchor count of step2 equals that of base (meta is unchanged)
      rcases hok with ⟨h3, h1⟩ | h5
      · refine Or.inl ⟨h3, ?_⟩
        simpa [enrichStep2_meta] using h1
      · exact Or.inr h5
    · split at h
      · next q hq =>
        split at h
        · next hok =>
          obtain rfl : mkEnriched c
              (enrichStep3 o lang q (enrichStep2 o lang c (enrichBase o lang c))) = e := by
            injection h
          refine ⟨rfl, rfl, mkEnriched_gate_of_le _ _ ?_⟩
          rcases hok with ⟨h3, h1⟩ | h5
          · refine Or.inl ⟨h3, ?_⟩
            simpa [enrichStep3_meta, enrichStep2_meta] using h1
          · exact Or.inr h5
        · exact absurd h (by simp)
      · exact absurd h (by simp)

theorem pickBestPoiForUser_mem (o : EnrichOracle) (dist : ℚ → ℚ → ℚ → ℚ → ℚ)
    (pois : List SrvPoi) (lat lng : ℚ) (heardSet : List String) (language : String)
    (e : EnrichedCand)
    (h : pickBestPoiForUser o dist pois lat lng heardSet language = some e) :
    ∃ p ∈ pois, ∃ c, rawCandOf dist lat lng heardSet p = some c ∧
      enrichOne o (if language = "he" then "he" else if language = "fr" then "fr" else "en") c
        = some e := by
  simp only [pickBestPoiForUser] at h
  split at h
  · exact absurd h (by simp)
  · split at h
    · exact absurd h (by simp)
    · next b rest heq =>
      have hbe : b = e := by injection h
      have h1 : b ∈ ((((pois.filterMap (rawCandOf dist lat lng heardSet)).mergeSort
          (fun a b => a.d ≤ b.d)).take 16).filterMap
            (enrichOne o (if language = "he" then "he"
              else if language = "fr" then "fr" else "en"))).mergeSort
                (fun a b => a.score ≤ b.score) := by
        rw [heq]
        exact List.mem_cons_self _ _
      have hmem := List.mem_mergeSort.mp h1
      obtain ⟨c, hc, hce⟩ := List.mem_filterMap.mp hmem
      have hcraw : c ∈ pois.filterMap (rawCandOf dist lat lng heardSet) := by
        have h2 := List.take_subset 16 _ hc
        exact List.mem_mergeSort.mp h2
      obtain ⟨p, hp, hpc⟩ := List.mem_filterMap.mp hcraw
      rw [hbe] at hce
      exact ⟨p, hp, c, hpc, hce⟩

/-! ### Structural lemmas about the endpoint -/
theorem pickBestPoiForUserS_db (pool : Bool) (o : EnrichOracle) (dist : ℚ → ℚ → ℚ → ℚ → ℚ)
    (pois : List SrvPoi) (lat lng : ℚ) (userKey language : String) (h : HistoryState) :
    (pickBestPoiForUserS pool o dist pois lat lng userKey language h).2.db = h.db := by
  unfold pickBestPoiForUserS
  split
  · rfl
  · exact getHeardSetForUser_db pool userKey h

theorem pickBestPoiForUserS_heardSetOf (pool : Bool) (o : EnrichOracle)
    (dist : ℚ → ℚ → ℚ → ℚ → ℚ) (pois : List SrvPoi) (lat lng : ℚ)
    (userKey language : String) (h : HistoryState) (u : String) :
    heardSetOf pool (pickBestPoiForUserS pool o dist pois lat lng userKey language h).2 u
      = heardSetOf pool h u := by
  unfold pickBestPoiForUserS
  split
  · rfl
  · exact heardSetOf_getHeardSetForUser pool userKey u h

theorem getNearbyPois_interesting_ok (pool : Bool) (ad : Adapters) (lat lng r : ℚ)
    (language : String) (st : ServerState) :
    ∃ pois st', getNearbyPois pool ad lat lng r "interesting" language st = .ok (pois, st') ∧
      st'.history = st.history := by
  simp only [getNearbyPois]
  cases h1 : findVal st.placesCacheMemory (makeCacheKey lat lng r "interesting" language) with
  | some mem => exact ⟨mem, st, rfl, rfl⟩
  | none =>
    cases h2 : (if pool then
        findVal st.placesCacheDb (makeCacheKey lat lng r "interesting" language) else none) with
    | some pois => exact ⟨pois, _, rfl, rfl⟩
    | none =>
      refine ⟨_, _, rfl, ?_⟩
      cases pool <;> rfl

theorem storyRadiiLoop_interesting_ok (pool : Bool) (ad : Adapters) (o : EnrichOracle)
    (dist : ℚ → ℚ → ℚ → ℚ → ℚ) (lat lng : ℚ) (userKey poisLang language : String) :
    ∀ (radii : List ℚ) (st : ServerState),
    ∃ ob st', storyRadiiLoop pool ad o dist lat lng userKey poisLang language radii st
        = .ok (ob, st') ∧
      st'.history.db = st.history.db ∧
      ∀ u, heardSetOf pool st'.history u = heardSetOf pool st.history u
  | [], st => ⟨none, st, rfl, rfl, fun _ => rfl⟩
  | r :: rest, st => by
    obtain ⟨pois, st1, hg, hh⟩ := getNearbyPois_interesting_ok pool ad lat lng r poisLang st
    have hdb1 := pickBestPoiForUserS_db pool o dist pois lat lng userKey language st1.history
    have hhs1 := pickBestPoiForUserS_heardSetOf pool o dist pois lat lng userKey language
      st1.history
    simp only [storyRadiiLoop, hg]
    cases hpb : (pickBestPoiForUserS pool o dist pois lat lng userKey language st1.history).1 with
    | some b =>
      refine ⟨some b, _, rfl, ?_, ?_⟩
      · show (pickBestPoiForUserS pool o dist pois lat lng userKey language st1.history).2.db
            = st.history.db
        rw [hdb1, hh]
      · intro u
        show heardSetOf pool
            (pickBestPoiForUserS pool o dist pois lat lng userKey language st1.history).2 u
          = heardSetOf pool st.history u
        rw [hhs1 u, hh]
    | none =>
      obtain ⟨ob, st', hrec, hdb', hhs'⟩ := storyRadiiLoop_interesting_ok pool ad o dist lat lng
        userKey poisLang language rest
        { st1 with history := (pickBestPoiForUserS pool o dist pois lat lng userKey language
            st1.history).2 }
      refine ⟨ob, st', hrec, ?_, ?_⟩
      · rw [hdb']
        show (pickBestPoiForUserS pool o dist pois lat lng userKey language st1.history).2.db
            = st.history.db
        rw [hdb1, hh]
      · intro u
        rw [hhs' u]
        show heardSetOf pool
            (pickBestPoiForUserS pool o dist pois lat lng userKey language st1.history).2 u
          = heardSetOf pool st.history u
        rw [hhs1 u, hh]

theorem jsTrim_no_story : jsTrim "NO_STORY" = "NO_STORY" := by decide

/-- Claim C3: when the generator output is exactly `NO_STORY`, the endpoint
    performs no TTS call, leaves the durable history and every user heard set
    unchanged, and answers `shouldSpeak:false` — with reason `model_no_story`
    whenever the pipeline got as far as the generator (the other possible
    answers are the earlier silent returns and the 400 for a missing prompt;
    a spoken response is impossible). -/
theorem storyBoth_no_story_silent (pool : Bool) (ad : Adapters) (o : EnrichOracle)
    (dist : ℚ → ℚ → ℚ → ℚ → ℚ) (userKey : String) (req : StoryRequest) (st : ServerState)
    (res : StoryResponse) (st' : ServerState) (tts : Bool)
    (h : storyBothHandler pool ad o dist (some "NO_STORY") userKey req st = (res, st', tts)) :
    tts = false ∧ st'.history.db = st.history.db ∧
    (∀ u, heardSetOf pool st'.history u = heardSetOf pool st.history u) ∧
    (res = .silentReply "model_no_story" (normalizeLanguageServer req.language) ∨
     res = .silentReply "no_strong_poi" (normalizeLanguageServer req.language) ∨
     res = .silentReply "location_missing" (normalizeLanguageServer req.language) ∨
     ∃ msg, res = .badRequest msg) := by
  unfold storyBothHandler at h
  cases hp : req.prompt with
  | none =>
    simp only [hp] at h
    obtain ⟨rfl, rfl, rfl⟩ := Prod.mk.injEq .. |>.mp h |>.imp id (Prod.mk.injEq .. |>.mp)
    exact ⟨rfl, rfl, fun _ => rfl, Or.inr (Or.inr (Or.inr ⟨_, rfl⟩))⟩
  | some pr =>
    simp only [hp] at h
    by_cases hpr : pr = ""
    · simp only [if_pos hpr] at h
      obtain ⟨rfl, rfl, rfl⟩ := Prod.mk.injEq .. |>.mp h |>.imp id (Prod.mk.injEq .. |>.mp)
      exact ⟨rfl, rfl, fun _ => rfl, Or.inr (Or.inr (Or.inr ⟨_, rfl⟩))⟩
    · simp only [if_neg hpr] at h
      cases hlat : req.lat with
      | none =>
        cases hlng : req.lng <;> simp only [hlat, hlng] at h <;>
          obtain ⟨rfl, rfl, rfl⟩ :=
            Prod.mk.injEq .. |>.mp h |>.imp id (Prod.mk.injEq .. |>.mp) <;>
          exact ⟨rfl, rfl, fun _ => rfl, Or.inr (Or.inr (Or.inl rfl))⟩
      | some lat =>
        cases hlng : req.lng with
        | none =>
          simp only [hlat, hlng] at h
          obtain ⟨rfl, rfl, rfl⟩ :=
            Prod.mk.injEq .. |>.mp h |>.imp id (Prod.mk.injEq .. |>.mp)
          exact ⟨rfl, rfl, fun _ => rfl, Or.inr (Or.inr (Or.inl rfl))⟩
        | some lng =>
          simp only [hlat, hlng] at h
          obtain ⟨ob, stL, hloop, hdb, hhs⟩ :=
            storyRadiiLoop_interesting_ok pool ad o dist lat lng userKey
              (if normalizeLanguageServer req.language = "he" then "he"
               else if normalizeLanguageServer req.language = "fr" then "fr" else "en")
              (normalizeLanguageServer req.language) [400, 800, 1500, 2200] st
          simp only [hloop] at h
          cases ob with
          | none =>
            obtain ⟨rfl, rfl, rfl⟩ :=
              Prod.mk.injEq .. |>.mp h |>.imp id (Prod.mk.injEq .. |>.mp)
            exact ⟨rfl, hdb, hhs, Or.inr (Or.inl rfl)⟩
          | some best =>
            simp only [jsTrim_no_story] at h
            rw [if_pos trivial] at h
            obtain ⟨rfl, rfl, rfl⟩ :=
              Prod.mk.injEq .. |>.mp h |>.imp id (Prod.mk.injEq .. |>.mp)
            exact ⟨rfl, hdb, hhs, Or.inl rfl⟩

/-- Claim C4 (amended): a story request with a well-typed prompt but missing
    or invalid coordinates is answered with HTTP 200 (not 4xx) carrying
    `shouldSpeak:false, reason:"location_missing"`, and has no side effects:
    the caches and the history are exactly the input state (there is no
    exposure log in the code at all). -/
theorem storyBoth_location_missing_200 (pool : Bool) (ad : Adapters) (o : EnrichOracle)
    (dist : ℚ → ℚ → ℚ → ℚ → ℚ) (gen : Option String) (userKey : String)
    (req : StoryRequest) (st : ServerState) (pr : String)
    (hp : req.prompt = some pr) (hpr : pr ≠ "") (hco : req.lat = none ∨ req.lng = none) :
    storyBothHandler pool ad o dist gen userKey req st =
      (.silentReply "location_missing" (normalizeLanguageServer req.language), st, false) ∧
    httpStatus (storyBothHandler pool ad o dist gen userKey req st).1 = 200 := by
  have heq : storyBothHandler pool ad o dist gen userKey req st =
      (.silentReply "location_missing" (normalizeLanguageServer req.language), st, false) := by
    unfold storyBothHandler
    simp only [hp, if_neg hpr]
    rcases hco with hl | hl
    · cases hlng : req.lng <;> simp only [hl, hlng]
    · cases hlat : req.lat <;> simp only [hl, hlat]
  exact ⟨heq, by rw [heq]; rfl⟩

/-- Claim C5 (amended): whenever the endpoint answers with a spoken story,
    the story text is exactly the trimmed generator output — the endpoint
    applies no word-count validation at all (the `BTW_MIN_WORDS` and
    `BTW_MAX_WORDS` bounds appear only inside the prompt text). -/
theorem storyBoth_spoken_text_is_generator_output (pool : Bool) (ad : Adapters)
    (o : EnrichOracle) (dist : ℚ → ℚ → ℚ → ℚ → ℚ) (gen : Option String) (userKey : String)
    (req : StoryRequest) (st : ServerState)
    (text pid pname psrc : String) (da : Option ℚ) (lg : String)
    (h : (storyBothHandler pool ad o dist gen userKey req st).1
          = .spoken text pid pname psrc da lg) :
    ∃ g, gen = some g ∧ text = jsTrim g ∧ jsTrim g ≠ "" ∧ jsTrim g ≠ "NO_STORY" := by
  unfold storyBothHandler at h
  cases hp : req.prompt with
  | none =>
    simp only [hp] at h
    exact absurd h (by simp)
  | some pr =>
    simp only [hp] at h
    by_cases hpr : pr = ""
    · rw [if_pos hpr] at h
      exact absurd h (by simp)
    · rw [if_neg hpr] at h
      cases hlat : req.lat with
      | none =>
        cases hlng : req.lng <;> simp only [hlat, hlng] at h <;> exact absurd h (by simp)
      | some lat =>
        cases hlng : req.lng with
        | none =>
          simp only [hlat, hlng] at h
          exact absurd h (by simp)
        | some lng =>
          simp only [hlat, hlng] at h
          obtain ⟨ob, stL, hloop, _, _⟩ :=
            storyRadiiLoop_interesting_ok pool ad o dist lat lng userKey
              (if normalizeLanguageServer req.language = "he" then "he"
               else if normalizeLanguageServer req.language = "fr" then "fr" else "en")
              (normalizeLanguageServer req.language) [400, 800, 1500, 2200] st
          rw [hloop] at h
          cases ob with
          | none =>
            exact absurd h (by simp)
          | some best =>
            cases gen with
            | none =>
              exact absurd h (by simp)
            | some g =>
              simp only at h
              by_cases ht0 : jsTrim g = ""
              · rw [if_pos ht0] at h
                exact absurd h (by simp)
              · rw [if_neg ht0] at h
                by_cases ht1 : jsTrim g = "NO_STORY"
                · rw [if_pos ht1] at h
                  exact absurd h (by simp)
                · rw [if_neg ht1] at h
                  refine ⟨g, rfl, ?_, ht0, ht1⟩
                  have := StoryResponse.spoken.injEq .. |>.mp h
                  exact this.1.symm

theorem findVal_mem {α : Type} [DecidableEq α] {β : Type} (m : List (α × β)) (k : α) (v : β)
    (h : findVal m k = some v) : (k, v) ∈ m := by
  induction m with
  | nil => exact absurd h (by simp [findVal])
  | cons hd tl ih =>
    obtain ⟨k₀, v₀⟩ := hd
    by_cases hk : k₀ = k
    · subst hk
      rw [findVal, if_pos rfl] at h
      obtain rfl : v₀ = v := by injection h
      exact List.mem_cons_self _ _
    · rw [findVal, if_neg hk] at h
      exact List.mem_cons_of_mem _ (ih h)

theorem setVal_preserves {α : Type} [DecidableEq α] {β : Type} (P : β → Prop)
    (m : List (α × β)) (k : α) (v : β) (hm : ∀ e ∈ m, P e.2) (hv : P v) :
    ∀ e ∈ setVal m k v, P e.2 := by
  induction m with
  | nil =>
    intro e he
    simp only [setVal, List.mem_singleton] at he
    subst he
    exact hv
  | cons hd tl ih =>
    obtain ⟨k₀, v₀⟩ := hd
    intro e he
    by_cases hk : k₀ = k
    · rw [setVal, if_pos hk] at he
      rcases List.mem_cons.mp he with rfl | htl
      · exact hv
      · exact hm e (List.mem_cons_of_mem _ htl)
    · rw [setVal, if_neg hk] at he
      rcases List.mem_cons.mp he with rfl | htl
      · exact hm _ (List.mem_cons_self _ _)
      · exact ih (fun e' he' => hm e' (List.mem_cons_of_mem _ he')) e htl

/-- With every adapter fulfilled and empty and every cache entry empty,
    `getNearbyPois` completes with an empty list and preserves the
    emptiness invariant and the history. -/
theorem getNearbyPois_all_empty (pool : Bool) (ad : Adapters) (lat lng r : ℚ)
    (language : String) (st : ServerState)
    (hosm : ∀ a b c, ad.osm a b c = .ok [])
    (hwd : ∀ a b c l, ad.wikidata a b c l = .ok [])
    (hgo : ∀ a b c, ad.google a b c = .ok [])
    (hmem : ∀ e ∈ st.placesCacheMemory, e.2 = ([] : List SrvPoi))
    (hdb : ∀ e ∈ st.placesCacheDb, e.2 = ([] : List SrvPoi)) :
    ∃ st', getNearbyPois pool ad lat lng r "interesting" language st = .ok ([], st') ∧
      st'.history = st.history ∧
      (∀ e ∈ st'.placesCacheMemory, e.2 = ([] : List SrvPoi)) ∧
      (∀ e ∈ st'.placesCacheDb, e.2 = ([] : List SrvPoi)) := by
  simp only [getNearbyPois]
  cases h1 : findVal st.placesCacheMemory (makeCacheKey lat lng r "interesting" language) with
  | some mem =>
    obtain rfl : mem = [] := hmem _ (findVal_mem _ _ _ h1)
    exact ⟨st, rfl, rfl, hmem, hdb⟩
  | none =>
    cases h2 : (if pool then
        findVal st.placesCacheDb (makeCacheKey lat lng r "interesting" language) else none) with
    | some pois =>
      have hpe : pois = [] := by
        cases pool with
        | false => exact absurd h2 (by simp)
        | true =>
          rw [if_pos rfl] at h2
          exact hdb _ (findVal_mem _ _ _ h2)
      subst hpe
      exact ⟨_, rfl, rfl,
        setVal_preserves (fun l => l = ([] : List SrvPoi)) st.placesCacheMemory
          (makeCacheKey lat lng r "interesting" language) [] hmem rfl, hdb⟩
    | none =>
      rw [hosm, hwd, hgo]
      cases pool with
      | false =>
        refine ⟨_, rfl, rfl, ?_, hdb⟩
        exact setVal_preserves (fun l => l = ([] : List SrvPoi)) st.placesCacheMemory
          (makeCacheKey lat lng r "interesting" language) (dedupePois []) hmem rfl
      | true =>
        refine ⟨_, rfl, rfl, ?_, ?_⟩
        · exact setVal_preserves (fun l => l = ([] : List SrvPoi)) st.placesCacheMemory
            (makeCacheKey lat lng r "interesting" language) (dedupePois []) hmem rfl
        · exact setVal_preserves (fun l => l = ([] : List SrvPoi)) st.placesCacheDb
            (makeCacheKey lat lng r "interesting" language) (dedupePois []) hdb rfl

/-- With empty adapters and caches, the radii loop finds no candidate and
    leaves the history untouched. -/
theorem storyRadiiLoop_all_empty (pool : Bool) (ad : Adapters) (o : EnrichOracle)
    (dist : ℚ → ℚ → ℚ → ℚ → ℚ) (lat lng : ℚ) (userKey poisLang language : String)
    (hosm : ∀ a b c, ad.osm a b c = .ok [])
    (hwd : ∀ a b c l, ad.wikidata a b c l = .ok [])
    (hgo : ∀ a b c, ad.google a b c = .ok []) :
    ∀ (radii : List ℚ) (st : ServerState),
    (∀ e ∈ st.placesCacheMemory, e.2 = ([] : List SrvPoi)) →
    (∀ e ∈ st.placesCacheDb, e.2 = ([] : List SrvPoi)) →
    ∃ st', storyRadiiLoop pool ad o dist lat lng userKey poisLang language radii st
        = .ok (none, st') ∧ st'.history = st.history
  | [], st, _, _ => ⟨st, rfl, rfl⟩
  | r :: rest, st, hmem, hdb => by
    obtain ⟨st1, hg, hh, hmem1, hdb1⟩ :=
      getNearbyPois_all_empty pool ad lat lng r poisLang st hosm hwd hgo hmem hdb
    obtain ⟨st', hrec, hh'⟩ := storyRadiiLoop_all_empty pool ad o dist lat lng userKey
      poisLang language hosm hwd hgo rest st1 hmem1 hdb1
    refine ⟨st', ?_, hh'.trans hh⟩
    simp only [storyRadiiLoop, hg, pickBestPoiForUserS, if_pos rfl]
    exact hrec

/-- Claim C7: (a) if exactly one of the OSM / knowledge-graph adapters fails
    while the other fulfills with candidates, the POI retrieval pipeline
    still completes with the surviving results (on a cache miss, the result is
    the de-duplicated surviving list); and (b) if every source fulfills empty
    at every radius (and the caches hold nothing), the endpoint decision is
    `shouldSpeak:false` with reason `no_strong_poi`. -/
theorem getNearbyPois_partial_failure_and_no_strong_poi :
    (∀ (pool : Bool) (ad : Adapters) (lat lng r : ℚ) (language : String) (st : ServerState)
       (e : String) (l : List SrvPoi),
       findVal st.placesCacheMemory (makeCacheKey lat lng r "interesting" language) = none →
       (if pool then
          findVal st.placesCacheDb (makeCacheKey lat lng r "interesting" language)
        else none) = none →
       ad.osm lat lng r = .error e → ad.wikidata lat lng r language = .ok l → l ≠ [] →
       ∃ st', getNearbyPois pool ad lat lng r "interesting" language st
         = .ok (dedupePois l, st')) ∧
    (∀ (pool : Bool) (ad : Adapters) (lat lng r : ℚ) (language : String) (st : ServerState)
       (e : String) (l : List SrvPoi),
       findVal st.placesCacheMemory (makeCacheKey lat lng r "interesting" language) = none →
       (if pool then
          findVal st.placesCacheDb (makeCacheKey lat lng r "interesting" language)
        else none) = none →
       ad.osm lat lng r = .ok l → ad.wikidata lat lng r language = .error e → l ≠ [] →
       ∃ st', getNearbyPois pool ad lat lng r "interesting" language st
         = .ok (dedupePois l, st')) ∧
    (∀ (pool : Bool) (ad : Adapters) (o : EnrichOracle) (dist : ℚ → ℚ → ℚ → ℚ → ℚ)
       (gen : Option String) (userKey : String) (req : StoryRequest) (st : ServerState)
       (pr : String) (lat lng : ℚ),
       req.prompt = some pr → pr ≠ "" → req.lat = some lat → req.lng = some lng →
       (∀ a b c, ad.osm a b c = .ok []) → (∀ a b c lg, ad.wikidata a b c lg = .ok []) →
       (∀ a b c, ad.google a b c = .ok []) →
       (∀ en ∈ st.placesCacheMemory, en.2 = ([] : List SrvPoi)) →
       (∀ en ∈ st.placesCacheDb, en.2 = ([] : List SrvPoi)) →
       (storyBothHandler pool ad o dist gen userKey req st).1
         = .silentReply "no_strong_poi" (normalizeLanguageServer req.language)) := by
  refine ⟨?_, ?_, ?_⟩
  · intro pool ad lat lng r language st e l h1 h2 hosm hwd hl
    simp only [getNearbyPois, h1, h2, hosm, hwd]
    simp only [List.nil_append, if_neg hl]
    exact ⟨_, rfl⟩
  · intro pool ad lat lng r language st e l h1 h2 hosm hwd hl
    simp only [getNearbyPois, h1, h2, hosm, hwd]
    simp only [List.append_nil, if_neg hl]
    exact ⟨_, rfl⟩
  · intro pool ad o dist gen userKey req st pr lat lng hp hpr hlat hlng hosm hwd hgo hmem hdb
    obtain ⟨st', hloop, _⟩ := storyRadiiLoop_all_empty pool ad o dist lat lng userKey
      (if normalizeLanguageServer req.language = "he" then "he"
       else if normalizeLanguageServer req.language = "fr" then "fr" else "en")
      (normalizeLanguageServer req.language) hosm hwd hgo [400, 800, 1500, 2200] st hmem hdb
    unfold storyBothHandler
    simp only [hp, if_neg hpr, hlat, hlng, hloop]

theorem cx_pick_eq :
    pickBestPoiForUser cxOracle cxDist [cxPoi] 0 0 [] "en" = some cxEnriched := by
  simp (disch := norm_num) [pickBestPoiForUser, rawCandOf, qidOfPoi, enrichOne, enrichBase,
    mkEnriched, computeFactScore, countHardAnchors, cxOracle, cxPoi, cxDist, cxEnriched,
    cxFacts, strStartsWith, if_neg, if_pos, List.filterMap_cons, List.filterMap_nil,
    List.mergeSort_singleton, List.mergeSort_nil]
  norm_num

theorem cx_lang_eq : normalizeLanguageServer (some "en") = "en" := by decide

theorem cx_approx_eq : approxDistanceMeters (some (100 : ℚ)) 50 = some 100 := by
  norm_num [approxDistanceMeters, roundToNearest, round_eq]

theorem cx_trim_eq : jsTrim "Too short." = "Too short." := by decide

theorem cxEnriched_p : cxEnriched.p = cxPoi := rfl

theorem cxEnriched_d : cxEnriched.d = 100 := rfl

theorem cxPoi_id : cxPoi.id = "wd:Q100" := rfl

theorem cxPoi_name : cxPoi.name = "Old Tower" := rfl

theorem cxPoi_source : cxPoi.source = "wikidata" := rfl

/-- The concrete endpoint run with a 2-word generator output speaks it. -/
theorem cx_spoken_fst :
    (storyBothHandler false cxAdapters cxOracle cxDist (some "Too short.") "u1" cxReq st0).1
      = .spoken "Too short." "wd:Q100" "Old Tower" "wikidata" (some 100) "en" := by
  simp (disch := norm_num) [storyBothHandler, storyRadiiLoop, getNearbyPois,
    pickBestPoiForUserS, getHeardSetForUser, findVal, makeCacheKey, dedupePois, dedupeAux,
    cxAdapters, cxReq, st0, cx_pick_eq, cx_lang_eq, cx_approx_eq, cx_trim_eq, cxEnriched_p,
    cxEnriched_d, cxPoi_id, cxPoi_name, cxPoi_source, if_neg, if_pos]

/-- The concrete endpoint run with generator output `NO_STORY` is silent with
    reason `model_no_story`. -/
theorem cx_no_story_fst :
    (storyBothHandler false cxAdapters cxOracle cxDist (some "NO_STORY") "u1" cxReq st0).1
      = .silentReply "model_no_story" "en" := by
  simp (disch := norm_num) [storyBothHandler, storyRadiiLoop, getNearbyPois,
    pickBestPoiForUserS, getHeardSetForUser, findVal, makeCacheKey, dedupePois, dedupeAux,
    cxAdapters, cxReq, st0, cx_pick_eq, cx_lang_eq, cx_approx_eq, jsTrim_no_story, cxEnriched_p,
    cxEnriched_d, cxPoi_id, cxPoi_name, cxPoi_source, if_neg, if_pos]

/-- Witness for C3 at a concrete request that reaches the generator: no TTS,
    history untouched, and the response is among the silent outcomes. -/
theorem storyBoth_no_story_silent_witness :
    (storyBothHandler false cxAdapters cxOracle cxDist (some "NO_STORY") "u1" cxReq st0).2.2
        = false ∧
    (storyBothHandler false cxAdapters cxOracle cxDist (some "NO_STORY") "u1" cxReq
        st0).2.1.history.db = st0.history.db ∧
    (∀ u, heardSetOf false (storyBothHandler false cxAdapters cxOracle cxDist (some "NO_STORY")
        "u1" cxReq st0).2.1.history u = heardSetOf false st0.history u) ∧
    ((storyBothHandler false cxAdapters cxOracle cxDist (some "NO_STORY") "u1" cxReq st0).1
        = .silentReply "model_no_story" (normalizeLanguageServer cxReq.language) ∨
     (storyBothHandler false cxAdapters cxOracle cxDist (some "NO_STORY") "u1" cxReq st0).1
        = .silentReply "no_strong_poi" (normalizeLanguageServer cxReq.language) ∨
     (storyBothHandler false cxAdapters cxOracle cxDist (some "NO_STORY") "u1" cxReq st0).1
        = .silentReply "location_missing" (normalizeLanguageServer cxReq.language) ∨
     ∃ msg, (storyBothHandler false cxAdapters cxOracle cxDist (some "NO_STORY") "u1" cxReq
        st0).1 = .badRequest msg) :=
  storyBoth_no_story_silent false cxAdapters cxOracle cxDist "u1" cxReq st0 _ _ _ rfl

/-- Witness for the amended C4: a request missing its latitude is answered
    200/location_missing with the state unchanged. -/
theorem storyBoth_location_missing_200_witness :
    storyBothHandler false cxAdapters cxOracle cxDist none "anon" cxReqNoLoc st0
      = (.silentReply "location_missing" (normalizeLanguageServer cxReqNoLoc.language),
         st0, false) ∧
    httpStatus (storyBothHandler false cxAdapters cxOracle cxDist none "anon" cxReqNoLoc
        st0).1 = 200 :=
  storyBoth_location_missing_200 false cxAdapters cxOracle cxDist none "anon" cxReqNoLoc st0
    "hi" rfl (by decide) (Or.inl rfl)

/-- Counterexample to C4 as stated: the missing-coordinates response carries
    HTTP status 200, not a 4xx status. -/
theorem storyBoth_4xx_counterexample :
    httpStatus (storyBothHandler false cxAdapters cxOracle cxDist none "anon" cxReqNoLoc
        st0).1 = 200 ∧
    ¬(400 ≤ httpStatus (storyBothHandler false cxAdapters cxOracle cxDist none "anon"
          cxReqNoLoc st0).1 ∧
      httpStatus (storyBothHandler false cxAdapters cxOracle cxDist none "anon" cxReqNoLoc
          st0).1 ≤ 499) := by
  have h : (storyBothHandler false cxAdapters cxOracle cxDist none "anon" cxReqNoLoc st0).1
      = .silentReply "location_missing" (normalizeLanguageServer cxReqNoLoc.language) := by
    simp [storyBothHandler, cxReqNoLoc]
  rw [h]
  exact ⟨rfl, by norm_num [httpStatus]⟩

/-- Witness for the amended C5: the spoken text of the concrete run is
    exactly the trimmed generator output. -/
theorem storyBoth_spoken_text_witness :
    ∃ g, (some "Too short." : Option String) = some g ∧ "Too short." = jsTrim g ∧
      jsTrim g ≠ "" ∧ jsTrim g ≠ "NO_STORY" :=
  storyBoth_spoken_text_is_generator_output false cxAdapters cxOracle cxDist
    (some "Too short.") "u1" cxReq st0 "Too short." "wd:Q100" "Old Tower" "wikidata"
    (some 100) "en" cx_spoken_fst

/-- Counterexample to C5 as stated: the endpoint speaks a 2-word story, far
    below `BTW_MIN_WORDS = 110`; no length validation exists. -/
theorem storyBoth_word_bounds_counterexample :
    (storyBothHandler false cxAdapters cxOracle cxDist (some "Too short.") "u1" cxReq st0).1
      = .spoken "Too short." "wd:Q100" "Old Tower" "wikidata" (some 100) "en" ∧
    countWords "Too short." = 2 ∧
    ¬(BTW_MIN_WORDS ≤ countWords "Too short." ∧ countWords "Too short." ≤ BTW_MAX_WORDS) :=
  ⟨cx_spoken_fst, by decide, by decide⟩

/-- Witness for C7: a run in which OSM fails while Wikidata delivers still
    completes with the Wikidata results, and a run in which every source is
    empty ends in `no_strong_poi`. -/
theorem getNearbyPois_partial_failure_witness :
    (∃ st', getNearbyPois false cxAdaptersOsmFail 0 0 400 "interesting" "en" st0
        = .ok (dedupePois [cxPoi], st')) ∧
    (storyBothHandler false cxEmptyAdapters cxOracle cxDist none "anon" cxReq st0).1
      = .silentReply "no_strong_poi" (normalizeLanguageServer cxReq.language) :=
  ⟨getNearbyPois_partial_failure_and_no_strong_poi.1 false cxAdaptersOsmFail 0 0 400 "en" st0
     "timeout" [cxPoi] rfl rfl rfl rfl (by simp),
   getNearbyPois_partial_failure_and_no_strong_poi.2.2 false cxEmptyAdapters cxOracle cxDist
     none "anon" cxReq st0 "hi" 0 0 rfl (by decide) rfl rfl (fun _ _ _ => rfl)
     (fun _ _ _ _ => rfl) (fun _ _ _ => rfl) (by simp [st0]) (by simp [st0])⟩

/-- Claim C2 (amended): every decision returned by the POI selection API
    `findBestPoi` has `shouldSpeak = true` — its reason is either
    `poi_google_places` or `fallback_anchor` — and it carries no `storyText`
    at all; no minimum on the facts list holds (it may be empty). -/
theorem findBestPoi_always_speaks (geo : Option GAnchor) (candidates : List GPlace)
    (person : String → String → PersonFacts) (meters : ℚ → ℚ → ℚ → ℚ → ℚ)
    (scoreF : GPlace → ℚ) (poiMaxCandidates : ℕ) (lat lng : Option ℚ) (lang : String)
    (dec : FindBestResult)
    (h : findBestPoi geo candidates person meters scoreF poiMaxCandidates lat lng lang
          = .ok dec) :
    dec.shouldSpeak = true ∧
    (dec.reason = "poi_google_places" ∨ dec.reason = "fallback_anchor") ∧
    dec.storyText = none := by
  cases lat with
  | none =>
    cases lng <;> exact absurd h (by simp [findBestPoi])
  | some la =>
    cases lng with
    | none => exact absurd h (by simp [findBestPoi])
    | some ln =>
      simp only [findBestPoi] at h
      cases hb : (bestLoop scoreF (candidates.take poiMaxCandidates)).1 with
      | some b =>
        rw [hb] at h
        injection h with h2
        subst h2
        exact ⟨rfl, Or.inl rfl, rfl⟩
      | none =>
        rw [hb] at h
        injection h with h2
        subst h2
        exact ⟨rfl, Or.inr rfl, rfl⟩

/-- Witness for the amended C2: a concrete `findBestPoi` run (no geocode, no
    candidates) returns a decision, and it speaks with a fallback reason and
    no story text. -/
theorem findBestPoi_always_speaks_witness :
    ∃ dec, findBestPoi none [] cxPerson cxDist cxScore 6 (some 32) (some 34) "en"
        = .ok dec ∧
      dec.shouldSpeak = true ∧
      (dec.reason = "poi_google_places" ∨ dec.reason = "fallback_anchor") ∧
      dec.storyText = none :=
  ⟨_, rfl, findBestPoi_always_speaks none [] cxPerson cxDist cxScore 6 (some 32) (some 34)
      "en" _ rfl⟩

/-- Counterexample to C2 as stated: the same concrete run yields
    `shouldSpeak = true` with an empty facts list and no `storyText`, so the
    invariant `shouldSpeak ⇒ storyText non-empty ∧ |facts| ≥ 2 ∧ an anchored
    fact exists` fails in every conjunct. -/
theorem findBestPoi_decision_invariant_counterexample :
    (findBestPoi none [] cxPerson cxDist cxScore 6 (some 32) (some 34) "en").map
        (fun dec => (dec.shouldSpeak, dec.reason, dec.poiWithFacts.facts, dec.storyText))
      = .ok (true, "fallback_anchor", ([] : List String), (none : Option String)) ∧
    ¬(2 ≤ ([] : List String).length) := by
  constructor
  · simp [findBestPoi, bestLoop, Except.map]
  · decide

/-- Claim C1 (amended): a candidate is narrated only if it passes the staged
    story-potential gate of the code — at least 4 facts with at least 1 hard
    anchor, or at least 6 facts, relaxing after the Wikipedia enrichment
    retries to at least 3 facts with an anchor, or at least 5 facts; every
    candidate failing the gate is skipped.  Hence every selected candidate
    satisfies the relaxed bound: (≥3 facts and ≥1 hard anchor) or ≥5 facts. -/
theorem pickBestPoiForUser_staged_quality_gate
    (o : EnrichOracle) (dist : ℚ → ℚ → ℚ → ℚ → ℚ) (pois : List SrvPoi) (lat lng : ℚ)
    (heardSet : List String) (language : String) (e : EnrichedCand)
    (h : pickBestPoiForUser o dist pois lat lng heardSet language = some e) :
    (3 ≤ e.facts.length ∧ 1 ≤ countHardAnchors e.meta) ∨ 5 ≤ e.facts.length := by
  obtain ⟨p, hp, c, hpc, hce⟩ :=
    pickBestPoiForUser_mem o dist pois lat lng heardSet language e h
  exact (enrichOne_spec o _ c e hce).2.2

/-- Witness for the amended C1: the concrete run selects a candidate, and it
    satisfies the staged gate (here through the ≥5-facts arm). -/
theorem pickBestPoiForUser_staged_quality_gate_witness :
    (3 ≤ cxEnriched.facts.length ∧ 1 ≤ countHardAnchors cxEnriched.meta) ∨
      5 ≤ cxEnriched.facts.length :=
  pickBestPoiForUser_staged_quality_gate cxOracle cxDist [cxPoi] 0 0 [] "en"
    cxEnriched cx_pick_eq

/-- Counterexample to C1 as stated: the concrete run narrates a candidate
    with 6 merged facts and 0 anchor flags (in particular no inception-year
    anchor), so the claimed gate of at least 10 facts and at least 2
    year-marked facts is not what the code enforces. -/
theorem pickBestPoiForUser_ten_fact_gate_counterexample :
    (pickBestPoiForUser cxOracle cxDist [cxPoi] 0 0 [] "en").map
        (fun e => (e.facts.length, countHardAnchors e.meta)) = some (6, 0) ∧
      ¬(10 ≤ 6 ∧ 2 ≤ 0) := by
  constructor
  · rw [cx_pick_eq]
    norm_num [cxEnriched, cxFacts, countHardAnchors]
  · norm_num

/-- Claim C6: during candidate selection every POI farther than 2200 m from
    the caller and every POI already in the heard set is dropped: the selected
    candidate is a listed POI, its distance (as computed by the distance
    function on its coordinates) is at most 2200 m, and its id is not heard. -/
theorem pickBestPoiForUser_distance_and_heard_filter
    (o : EnrichOracle) (dist : ℚ → ℚ → ℚ → ℚ → ℚ) (pois : List SrvPoi) (lat lng : ℚ)
    (heardSet : List String) (language : String) (e : EnrichedCand)
    (h : pickBestPoiForUser o dist pois lat lng heardSet language = some e) :
    e.d ≤ 2200 ∧ heardSet.contains e.p.id = false ∧ e.p ∈ pois ∧
    ∃ pla plng, e.p.lat = some pla ∧ e.p.lng = some plng ∧ e.d = dist lat lng pla plng := by
  obtain ⟨p, hp, c, hpc, hce⟩ :=
    pickBestPoiForUser_mem o dist pois lat lng heardSet language e h
  obtain ⟨hep, hed, _⟩ := enrichOne_spec o _ c e hce
  obtain ⟨hcp, hcd, hheard, pla, plng, hla, hlng, hdist⟩ :=
    rawCandOf_spec dist lat lng heardSet p c hpc
  refine ⟨?_, ?_, ?_, pla, plng, ?_, ?_, ?_⟩
  · rw [hed]; exact le_trans hcd (by norm_num)
  · rw [hep, hcp]; exact hheard
  · rw [hep, hcp]; exact hp
  · rw [hep, hcp]; exact hla
  · rw [hep, hcp]; exact hlng
  · rw [hed]; exact hdist

/-- Witness for C6: the concrete run selects a candidate at 100 m that is not
    in the (empty) heard set. -/
theorem pickBestPoiForUser_distance_and_heard_filter_witness :
    cxEnriched.d ≤ 2200 ∧ ([] : List String).contains cxEnriched.p.id = false ∧
    cxEnriched.p ∈ [cxPoi] ∧ ∃ pla plng, cxEnriched.p.lat = some pla ∧
      cxEnriched.p.lng = some plng ∧ cxEnriched.d = cxDist 0 0 pla plng :=
  pickBestPoiForUser_distance_and_heard_filter cxOracle cxDist [cxPoi] 0 0 [] "en"
    cxEnriched cx_pick_eq

/-- Claim C9: for every finite distance d ≥ 0, the displayed approximate
    distance at the default 50 m step equals d rounded to the nearest multiple
    of 50 (so it is a multiple of 50 within 25 m of d), and a non-finite
    input yields no displayed distance. -/
theorem approxDistanceMeters_rounds_to_nearest_50 :
    (∀ d : ℚ, 0 ≤ d →
      approxDistanceMeters (some d) 50 = some ((round (d / 50) : ℤ) * 50) ∧
      |d - ((round (d / 50) : ℤ) * 50 : ℚ)| ≤ 25) ∧
    approxDistanceMeters none 50 = none := by
  constructor
  · intro d hd
    constructor
    · simp [approxDistanceMeters, roundToNearest, max_eq_right hd]
      norm_num
    · have h := abs_sub_round (d / 50)
      have h50 : |(50 : ℚ)| = 50 := by norm_num
      calc |d - ((round (d / 50) : ℤ) * 50 : ℚ)|
          = |(d / 50 - (round (d / 50) : ℤ)) * 50| := by ring_nf
        _ = |d / 50 - (round (d / 50) : ℤ)| * 50 := by rw [abs_mul, h50]
        _ ≤ (1 / 2) * 50 := by
            exact mul_le_mul_of_nonneg_right h (by norm_num)
        _ = 25 := by norm_num
  · rfl

/-- Witness for C9 at d = 130: the display distance is 150, a multiple of 50
    within 25 m of the input. -/
theorem approxDistanceMeters_rounds_to_nearest_50_witness :
    approxDistanceMeters (some 130) 50 = some ((round ((130 : ℚ) / 50) : ℤ) * 50) ∧
    |(130 : ℚ) - ((round ((130 : ℚ) / 50) : ℤ) * 50 : ℚ)| ≤ 25 :=
  approxDistanceMeters_rounds_to_nearest_50.1 130 (by norm_num)

/-- Claim C10: the knowledge-graph proximity query uses radius r/1000 km
    clamped into [0.2, 5]: requests below 200 m widen to 0.2 km, requests
    above 5000 m narrow to 5 km, and in between the radius is r/1000. -/
theorem wikidataRadiusKm_clamps :
    (∀ r : ℚ, r < 200 → wikidataRadiusKm r = 2/10) ∧
    (∀ r : ℚ, 5000 < r → wikidataRadiusKm r = 5) ∧
    (∀ r : ℚ, 200 ≤ r → r ≤ 5000 → wikidataRadiusKm r = r / 1000) := by
  refine ⟨?_, ?_, ?_⟩
  · intro r hr
    have h1 : r / 1000 < 2/10 := by linarith
    have h2 : min 5 (r / 1000) ≤ 2/10 := le_trans (min_le_right _ _) (le_of_lt h1)
    simpa [wikidataRadiusKm] using max_eq_left h2
  · intro r hr
    have h1 : (5 : ℚ) ≤ r / 1000 := by linarith
    have h2 : min 5 (r / 1000) = 5 := min_eq_left h1
    simp only [wikidataRadiusKm, h2]
    exact max_eq_right (by norm_num)
  · intro r h1 h2
    have hlo : (2/10 : ℚ) ≤ r / 1000 := by linarith
    have hhi : r / 1000 ≤ 5 := by linarith
    simp only [wikidataRadiusKm, min_eq_right hhi]
    exact max_eq_right hlo

/-- Claim C8: MarkHeard is idempotent — for every pool mode, user key, POI key
    and starting state, marking the same pair heard twice leaves both the
    in-memory heard set and the durable history exactly as marking it once. -/
theorem markPlaceHeardForUser_idempotent (pool : Bool) (userKey placeId : String)
    (st : HistoryState) :
    markPlaceHeardForUser pool userKey placeId (markPlaceHeardForUser pool userKey placeId st)
      = markPlaceHeardForUser pool userKey placeId st := by
  by_cases hp : placeId = ""
  · simp [markPlaceHeardForUser, hp]
  · cases h : findVal st.memory userKey with
    | some s =>
      cases pool <;>
        simp [markPlaceHeardForUser, getHeardSetForUser, hp, h,
              findVal_setVal_self, setVal_setVal_self, setAdd_self,
              dbUpsert_contains_self, dbUpsert_idem]
    | none =>
      cases pool <;>
        simp [markPlaceHeardForUser, getHeardSetForUser, hp, h,
              findVal_setVal_self, setVal_setVal_self, setAdd_self,
              dbUpsert_contains_self, dbUpsert_idem]

/-- Witness for C10: a 100 m request is widened to 0.2 km, a 9000 m request is
    narrowed to 5 km, and an 800 m request queries at 0.8 km. -/
theorem wikidataRadiusKm_clamps_witness :
    wikidataRadiusKm 100 = 2/10 ∧ wikidataRadiusKm 9000 = 5 ∧
    wikidataRadiusKm 800 = (800 : ℚ) / 1000 :=
  ⟨wikidataRadiusKm_clamps.1 100 (by norm_num),
   wikidataRadiusKm_clamps.2.1 9000 (by norm_num),
   wikidataRadiusKm_clamps.2.2 800 (by norm_num) (by norm_num)⟩

end OnTheRoad
